import Mathlib

/-!
Verification of the terminal-emulation core of velocitermqt.

The definitions below are shallow embeddings of the Python sources:
  - the extended-color SGR dispatch of FixedHistoryScreen.select_graphic_rendition
    (src/test_color.py, lines 23-71),
  - the 256-color palette and color resolution (src/vtqt/pyte_buffer.py,
    _build_256_palette / get_256_color / pyte_color_to_rgb),
  - PyteTerminalBuffer (src/vtqt/pyte_buffer.py): feed, scroll_to,
    update_selection, get_selected_text, resize, dirty tracking,
  - TextBuffer (src/vtqt/terminal_buffer.py): scroll_to, update_selection,
  - the grid-size computation of text_widget._calculate_grid_size.

Python integers are embedded as Int (Nat where the value is a size or an
index that is provably nonnegative at its creation site); Python list
indexing that could raise IndexError is embedded through Option-valued
access so that an out-of-range access is visible as a none result.
-/

/-- Color specification as stored in a pyte character cell: the Python code
stores the string "default", a named-color string, a bare int for a
256-color index, or an (r, g, b) tuple for true color.  The int and tuple
variants are only ever stored after a 0..255 range check, hence Nat fields. -/
inductive ColorSpec where
  | default
  | named (s : String)
  | indexed (n : Nat)
  | truecolor (r g b : Nat)
deriving DecidableEq, Repr

/-- Cursor rendition state: the fg/bg color and attribute flags carried by
pyte cursor.attrs, which every subsequently drawn character copies. -/
structure SGRState where
  fg : ColorSpec := .default
  bg : ColorSpec := .default
  bold : Bool := false
  italics : Bool := false
  underscore : Bool := false
  blink : Bool := false
  reverse : Bool := false
  strikethrough : Bool := false
deriving DecidableEq, Repr

/-- Embedding of _set_fg_color: cursor.attrs = cursor.attrs._replace(fg=color). -/
def setFg (st : SGRState) (c : ColorSpec) : SGRState := { st with fg := c }

/-- Embedding of _set_bg_color: cursor.attrs = cursor.attrs._replace(bg=color). -/
def setBg (st : SGRState) (c : ColorSpec) : SGRState := { st with bg := c }

/-- The eight basic ANSI color names in pyte order (codes 30-37 / 40-47). -/
def basicNames : List String :=
  ["black", "red", "green", "yellow", "blue", "magenta", "cyan", "white"]

/-- Modelled from the spec: the standalone single-parameter SGR handling that
src/test_color.py delegates to the pyte library (super().select_graphic_rendition
with one argument), which is not part of this repository.  Per spec section 4.1,
any single parameter (0, 1, 7, 30-37, 40-47, 90-97, 100-107, ...) is handled as
a standalone attribute; reset (0) fully clears prior attributes. -/
def applySingle (st : SGRState) (a : Int) : SGRState :=
  if a = 0 then {}
  else if a = 1 then { st with bold := true }
  else if a = 3 then { st with italics := true }
  else if a = 4 then { st with underscore := true }
  else if a = 5 then { st with blink := true }
  else if a = 7 then { st with reverse := true }
  else if a = 9 then { st with strikethrough := true }
  else if 30 ≤ a ∧ a ≤ 37 then
    { st with fg := .named (basicNames.getD (a - 30).toNat "default") }
  else if a = 39 then { st with fg := .default }
  else if 40 ≤ a ∧ a ≤ 47 then
    { st with bg := .named (basicNames.getD (a - 40).toNat "default") }
  else if a = 49 then { st with bg := .default }
  else if 90 ≤ a ∧ a ≤ 97 then
    { st with fg := .named ("bright" ++ basicNames.getD (a - 90).toNat "default") }
  else if 100 ≤ a ∧ a ≤ 107 then
    { st with bg := .named ("bright" ++ basicNames.getD (a - 100).toNat "default") }
  else st

/-- One compound guard of the dispatch in select_graphic_rendition
(src/test_color.py): the Python condition
  attr == code and i + need < len(attrs) and attrs[i + 1] == marker
with short-circuit evaluation; the read of attrs[i + 1] happens only after
the bounds test i + need < len(attrs) succeeded, and is embedded through
Option so that an out-of-range read would surface as none. -/
def sgrCond (attrs : List Int) (i : Nat) (attr code marker : Int) (need : Nat) :
    Option Bool :=
  if attr = code then
    if i + need < attrs.length then
      attrs[i + 1]?.map (fun p => decide (p = marker))
    else some false
  else some false

/-- Embedding of the while-loop of FixedHistoryScreen.select_graphic_rendition
(src/test_color.py, lines 26-65), recursing on the loop index i.  Every list
read (attrs[i], attrs[i+1], ..., attrs[i+4]) goes through Option: a none
result models a Python IndexError escaping the loop.  The four guarded forms
are tried in source order (38;5;N, 48;5;N, 38;2;R;G;B, 48;2;R;G;B), each
consuming 3 resp. 5 parameters, with the 0..255 range checks of the source;
anything else is handled as a standalone attribute consuming one parameter. -/
def sgrRun (attrs : List Int) (st : SGRState) (i : Nat) : Option SGRState :=
  if _h : i < attrs.length then
    match attrs[i]? with
    | none => none
    | some attr =>
      match sgrCond attrs i attr 38 5 2 with
      | none => none
      | some true =>
        match attrs[i + 2]? with
        | none => none
        | some n =>
          sgrRun attrs (if 0 ≤ n ∧ n ≤ 255 then setFg st (.indexed n.toNat) else st) (i + 3)
      | some false =>
        match sgrCond attrs i attr 48 5 2 with
        | none => none
        | some true =>
          match attrs[i + 2]? with
          | none => none
          | some n =>
            sgrRun attrs (if 0 ≤ n ∧ n ≤ 255 then setBg st (.indexed n.toNat) else st) (i + 3)
        | some false =>
          match sgrCond attrs i attr 38 2 4 with
          | none => none
          | some true =>
            match attrs[i + 2]?, attrs[i + 3]?, attrs[i + 4]? with
            | some r, some g, some b =>
              sgrRun attrs
                (if 0 ≤ r ∧ r ≤ 255 ∧ 0 ≤ g ∧ g ≤ 255 ∧ 0 ≤ b ∧ b ≤ 255 then
                  setFg st (.truecolor r.toNat g.toNat b.toNat)
                else st) (i + 5)
            | _, _, _ => none
          | some false =>
            match sgrCond attrs i attr 48 2 4 with
            | none => none
            | some true =>
              match attrs[i + 2]?, attrs[i + 3]?, attrs[i + 4]? with
              | some r, some g, some b =>
                sgrRun attrs
                  (if 0 ≤ r ∧ r ≤ 255 ∧ 0 ≤ g ∧ g ≤ 255 ∧ 0 ≤ b ∧ b ≤ 255 then
                    setBg st (.truecolor r.toNat g.toNat b.toNat)
                  else st) (i + 5)
              | _, _, _ => none
            | some false =>
              sgrRun attrs (applySingle st attr) (i + 1)
  else some st
termination_by attrs.length - i
decreasing_by all_goals omega

/-- Modelled from the spec: drawing a printed character stamps it with the
cursor current attributes (the draw routine lives in the pyte library, not
under src/); spec section 8 fixes that a character printed after an SGR
carries the colors the SGR installed. -/
structure DrawnChar where
  data : Char
  fg : ColorSpec
  bg : ColorSpec
deriving DecidableEq, Repr

/-- Modelled from the spec: a printed character copies the cursor fg/bg. -/
def drawChar (st : SGRState) (c : Char) : DrawnChar :=
  { data := c, fg := st.fg, bg := st.bg }

/-- The sixteen standard colors of _build_256_palette (src/vtqt/pyte_buffer.py,
lines 101-106). -/
def standard16 : List Nat :=
  [0x000000, 0xCD3131, 0x0DBC79, 0xE5E510,
   0x2472C8, 0xBC3FBC, 0x11A8CD, 0xE5E5E5,
   0x666666, 0xF14C4C, 0x23D18B, 0xF5F543,
   0x3B8EEA, 0xD670D6, 0x29B8DB, 0xFFFFFF]

/-- Embedding of get_256_color composed with _build_256_palette
(src/vtqt/pyte_buffer.py, lines 89-126): the palette dict maps 0-15 to the
standard colors, 16 + i (i in 0..215) to the 6x6x6 cube entry built from
r = (i // 36) % 6, g = (i // 6) % 6, b = i % 6 with axis value
0 if axis == 0 else 55 + axis * 40, and 232 + i (i in 0..23) to the
grayscale value v = 8 + i * 10 replicated into the three channels; a lookup
of any other index returns the dict-get default 0xD4D4D4. -/
def get256Color (index : Nat) : Nat :=
  if index < 16 then standard16.getD index 0xD4D4D4
  else if index < 232 then
    let i := index - 16
    let r := i / 36 % 6
    let g := i / 6 % 6
    let b := i % 6
    ((if r = 0 then 0 else 55 + r * 40) <<< 16) |||
      ((if g = 0 then 0 else 55 + g * 40) <<< 8) |||
      (if b = 0 then 0 else 55 + b * 40)
  else if index < 256 then
    let v := 8 + (index - 232) * 10
    (v <<< 16) ||| (v <<< 8) ||| v
  else 0xD4D4D4

/-- The named-color table PYTE_COLORS (src/vtqt/pyte_buffer.py, lines 65-84). -/
def pyteColors : List (String × Nat) :=
  [("default", 0xD4D4D4), ("black", 0x000000), ("red", 0xCD3131),
   ("green", 0x0DBC79), ("yellow", 0xE5E510), ("blue", 0x2472C8),
   ("magenta", 0xBC3FBC), ("cyan", 0x11A8CD), ("white", 0xE5E5E5),
   ("brightblack", 0x666666), ("brightred", 0xF14C4C),
   ("brightgreen", 0x23D18B), ("brightyellow", 0xF5F543),
   ("brightblue", 0x3B8EEA), ("brightmagenta", 0xD670D6),
   ("brightcyan", 0x29B8DB), ("brightwhite", 0xFFFFFF)]

/-- Embedding of pyte_color_to_rgb (src/vtqt/pyte_buffer.py, lines 129-147):
None or "default" yields the caller-supplied default, a named color is looked
up in PYTE_COLORS (falling back to the default), an int index goes through the
256-color palette, and an (r, g, b) tuple is packed as (r << 16) | (g << 8) | b. -/
def pyteColorToRgb (color : ColorSpec) (dflt : Nat) : Nat :=
  match color with
  | .default => dflt
  | .named s => ((pyteColors.lookup s).getD dflt)
  | .indexed n => get256Color n
  | .truecolor r g b => (r <<< 16) ||| (g <<< 8) ||| b

/-- Axis value of the 6x6x6 color cube as the spec states it: an axis value
n maps to 0 when n = 0 and to 55 + n * 40 for n in 1..5. -/
def axisVal (n : Nat) : Nat := if n = 0 then 0 else 55 + n * 40

/-- Selection state (src/vtqt/terminal_buffer.py, Selection dataclass):
endpoint coordinates default to -1 with active = False. -/
structure Selection where
  startRow : Int := -1
  startCol : Int := -1
  endRow : Int := -1
  endCol : Int := -1
  active : Bool := false
deriving DecidableEq, Repr

/-- Embedding of Selection.normalize: return the endpoints with start before
end under the Python lexicographic tuple comparison
(start_row, start_col) <= (end_row, end_col). -/
def Selection.normalize (s : Selection) : Int × Int × Int × Int :=
  if s.startRow < s.endRow ∨ (s.startRow = s.endRow ∧ s.startCol ≤ s.endCol) then
    (s.startRow, s.startCol, s.endRow, s.endCol)
  else
    (s.endRow, s.endCol, s.startRow, s.startCol)

/-- A stored line: the list of cell characters that were written to it.
Pyte keeps a line as a sparse dict from column to Char; reading a column that
holds no entry yields the default (blank) character, which lineRead models
with the defaulted lookup.  A pyte Char whose data is the empty string is
read back as a blank by the extraction code (char.data if char.data else
a space), so each stored cell is modelled by its on-screen character. -/
def TermLine := List Char
deriving DecidableEq, Repr

/-- Defaulted cell read: line_dict.get(col, self.screen.default_char),
followed by (char.data if char.data else a space). -/
def lineRead (l : TermLine) (col : Int) : Char :=
  let l' : List Char := l
  if h : 0 ≤ col ∧ col.toNat < l'.length then l'.get ⟨col.toNat, h.2⟩ else ' '

/-- Python range(lo, hi) over integers, as the list lo, lo+1, ..., hi-1. -/
def intRange (lo hi : Int) : List Int :=
  (List.range (hi - lo).toNat).map (fun (k : Nat) => lo + (k : Int))

/-- Python str.rstrip whitespace set (space, tab, newline, carriage return,
vertical tab, form feed). -/
def pyIsSpace (c : Char) : Bool :=
  c = ' ' || c = '\t' || c = '\n' || c = '\x0d' || c = '\x0b' || c = '\x0c'

/-- Python str.rstrip(): drop trailing whitespace characters. -/
def pyRstrip (s : String) : String :=
  String.mk ((s.data.reverse.dropWhile pyIsSpace).reverse)

/-- State of a PyteTerminalBuffer (src/vtqt/pyte_buffer.py).  The pyte screen
object itself is external to the repository; the buffer code only reads its
line count (screen.lines), its per-row cell dicts (screen.buffer) and the
history deque (screen.history.top), so those projections are carried here as
history and screenLines.  The private field _auto_scroll is set to True in
the constructor and never written anywhere else in the repository, so feed
embeds it as the constant true.  visible_rows, cols and _scroll_offset are
Python ints and are embedded as Int. -/
structure PVBuffer where
  visibleRows : Int
  cols : Int
  history : List TermLine
  screenLines : List TermLine
  selection : Selection := {}
  scrollOffset : Int := 0
  dirty : Bool := true
deriving DecidableEq, Repr

namespace PVBuffer

/-- Property history_size: len(self.screen.history.top). -/
def historySize (s : PVBuffer) : Nat := s.history.length

/-- Property total_lines: history_size + self.screen.lines. -/
def totalLines (s : PVBuffer) : Int :=
  (s.history.length : Int) + s.screenLines.length

/-- Property max_scroll: max(0, total_lines - visible_rows). -/
def maxScroll (s : PVBuffer) : Int := max 0 (s.totalLines - s.visibleRows)

/-- Embedding of _clamp_scroll: scroll offset becomes
max(0, min(offset, max_scroll)). -/
def clampScroll (s : PVBuffer) : PVBuffer :=
  { s with scrollOffset := max 0 (min s.scrollOffset s.maxScroll) }

/-- Embedding of PyteTerminalBuffer.feed.  The call self.stream.feed(data)
drives the external pyte parser, which mutates the screen and the history in
some way and may raise; its outcome enters as the newHist/newScr contents
reached when the call returned or raised, together with streamErr, the
exception it raised (none when it returned normally).  The try/except block
of the source catches any such exception and logs it; the returned Option
String is the exception that escapes feed itself to the caller. -/
def feed (s : PVBuffer) (newHist newScr : List TermLine)
    (streamErr : Option String) : PVBuffer × Option String :=
  let wasAtBottom := s.maxScroll ≤ s.scrollOffset
  -- try: self.stream.feed(data) / except Exception as e: print(..., stderr)
  let caught : Option String := streamErr
  let _logged := caught
  let s1 := { s with history := newHist, screenLines := newScr }
  let s2 := clampScroll s1
  -- if was_at_bottom and self._auto_scroll (constant True, see PVBuffer doc)
  let s3 := if wasAtBottom then { s2 with scrollOffset := s2.maxScroll } else s2
  ({ s3 with dirty := true }, none)

/-- Embedding of PyteTerminalBuffer.scroll_to: clamp the requested offset and
set the dirty flag unconditionally. -/
def scrollTo (s : PVBuffer) (offset : Int) : PVBuffer :=
  { s with scrollOffset := max 0 (min offset s.maxScroll), dirty := true }

/-- Embedding of clear_dirty. -/
def clearDirty (s : PVBuffer) : PVBuffer := { s with dirty := false }

/-- Embedding of PyteTerminalBuffer.get_line: None for a negative row, the
history line for rows below history_size, the active-screen row for rows in
the screen range, and None beyond. -/
def getLine (s : PVBuffer) (absRow : Int) : Option TermLine :=
  if absRow < 0 then none
  else if absRow < (s.history.length : Int) then s.history[absRow.toNat]?
  else
    let screenRow := absRow - s.history.length
    if 0 ≤ screenRow ∧ screenRow < (s.screenLines.length : Int) then
      s.screenLines[screenRow.toNat]?
    else none

/-- Embedding of PyteTerminalBuffer.update_selection: a complete no-op when
no selection is active; otherwise clamp the viewport position into absolute
coordinates and move the selection end point, marking dirty only on change. -/
def updateSelection (s : PVBuffer) (viewRow col : Int) : PVBuffer :=
  if ¬ s.selection.active then s
  else
    let absRow0 := viewRow + s.scrollOffset
    let absRow := max 0 (min absRow0 (s.totalLines - 1))
    let col' := max 0 (min col (s.cols - 1))
    if s.selection.endRow ≠ absRow ∨ s.selection.endCol ≠ col' then
      { s with
        selection := { s.selection with endRow := absRow, endCol := col' },
        dirty := true }
    else s

/-- Embedding of PyteTerminalBuffer.get_selected_text (src/vtqt/pyte_buffer.py,
lines 356-381): empty when no selection is active (or the start row is the
inactive sentinel); otherwise walk the normalized row range, skip rows whose
get_line is None, clip the column range to the start column on the first row
and the end column on the last row, read each column through the defaulted
cell lookup, right-strip each row text and join with newlines. -/
def getSelectedText (s : PVBuffer) : String :=
  if ¬ s.selection.active ∨ s.selection.startRow < 0 then ""
  else
    let n := s.selection.normalize
    let r1 := n.1
    let c1 := n.2.1
    let r2 := n.2.2.1
    let c2 := n.2.2.2
    let pieces := (intRange r1 (r2 + 1)).filterMap (fun row =>
      match s.getLine row with
      | none => none
      | some lineDict =>
        let startCol := if row = r1 then c1 else 0
        let endCol := if row = r2 then c2 else s.cols - 1
        some (pyRstrip (String.mk
          ((intRange startCol (endCol + 1)).map (fun col => lineRead lineDict col)))))
    String.intercalate "\n" pieces

/-- Embedding of PyteTerminalBuffer.resize (src/vtqt/pyte_buffer.py, lines
457-463): store the requested dimensions as given, let the external pyte
screen resize itself (its resulting history/screen contents enter as
parameters), clamp the scroll offset and mark dirty.  No dimension clamping
happens here. -/
def resize (s : PVBuffer) (rows cols : Int)
    (newHist newScr : List TermLine) : PVBuffer :=
  let s1 := { s with visibleRows := rows, cols := cols,
                     history := newHist, screenLines := newScr }
  let s2 := clampScroll s1
  { s2 with dirty := true }

end PVBuffer

/-- State of a TextBuffer (src/vtqt/terminal_buffer.py): a flat list of
content lines with viewport scrolling and selection.  Only the line count
matters to the operations verified here, but the lines are carried as data. -/
structure TBuf where
  visibleRows : Int
  cols : Int
  lines : List TermLine
  scrollOffset : Int := 0
  selection : Selection := {}
  dirty : Bool := true
deriving DecidableEq, Repr

namespace TBuf

/-- Property max_scroll: max(0, len(lines) - visible_rows). -/
def maxScroll (t : TBuf) : Int := max 0 ((t.lines.length : Int) - t.visibleRows)

/-- Embedding of TextBuffer.scroll_to: clamp the requested offset; store it
and mark dirty only when it differs from the current offset. -/
def scrollTo (t : TBuf) (offset : Int) : TBuf :=
  let newOffset := max 0 (min offset t.maxScroll)
  if newOffset ≠ t.scrollOffset then
    { t with scrollOffset := newOffset, dirty := true }
  else t

/-- Embedding of clear_dirty. -/
def clearDirty (t : TBuf) : TBuf := { t with dirty := false }

/-- Embedding of TextBuffer.update_selection: a complete no-op when no
selection is active; otherwise clamp and move the end point, marking dirty
only on change. -/
def updateSelection (t : TBuf) (row col : Int) : TBuf :=
  if ¬ t.selection.active then t
  else
    let bufRow0 := row + t.scrollOffset
    let bufRow := max 0 (min bufRow0 ((t.lines.length : Int) - 1))
    let col' := max 0 (min col (t.cols - 1))
    if t.selection.endRow ≠ bufRow ∨ t.selection.endCol ≠ col' then
      { t with
        selection := { t.selection with endRow := bufRow, endCol := col' },
        dirty := true }
    else t

end TBuf

/-- Embedding of the grid-size computation in _calculate_grid_size
(src/vtqt/text_widget.py, lines 117-133): when the cell metrics are positive,
the new column and row counts are max(1, width // cell_width) and
max(1, height // cell_height) with Python floor division; otherwise no grid
size is produced.  This is the layer that clamps degenerate sizes to 1x1
before the buffer resize is invoked. -/
def calcGridSize (w h cw ch : Int) : Option (Int × Int) :=
  if 0 < cw ∧ 0 < ch then some (max 1 (w.fdiv cw), max 1 (h.fdiv ch))
  else none

/-- A concrete buffer pinned at the bottom: 4 total lines, 2 visible,
offset 2 = max_scroll. -/
def feedDemoBottom : PVBuffer :=
  { visibleRows := 2, cols := 4, history := [[], []], screenLines := [[], []],
    scrollOffset := 2, dirty := false }

/-- A concrete buffer scrolled above the bottom: 4 total lines, 2 visible,
offset 1 < max_scroll = 2. -/
def feedDemoAbove : PVBuffer :=
  { visibleRows := 2, cols := 4, history := [[], []], screenLines := [[], []],
    scrollOffset := 1, dirty := false }

/-- A concrete buffer for the scroll_to dirty-flag counterexample: 6 total
lines, 2 visible (max_scroll = 4), clean dirty flag. -/
def scrollDemo : PVBuffer :=
  { visibleRows := 2, cols := 4, history := [[], [], [], []],
    screenLines := [[], []], scrollOffset := 0, dirty := false }

/-- A concrete buffer for the resize counterexample. -/
def resizeDemo : PVBuffer :=
  { visibleRows := 24, cols := 80, history := [], screenLines := [[], []],
    scrollOffset := 0, dirty := false }

/-- A concrete buffer with no active selection. -/
def noSelDemo : PVBuffer :=
  { visibleRows := 2, cols := 4, history := [[], []], screenLines := [[], []],
    scrollOffset := 1, dirty := false }

/-- A concrete buffer with a multi-row selection spanning history and the
active screen: rows abc / d.. in history, row e on screen, selection from
(0,1) to (2,0). -/
def selDemo : PVBuffer :=
  { visibleRows := 2, cols := 3,
    history := [['a', 'b', 'c'], ['d', ' ', ' ']],
    screenLines := [['e'], []],
    selection := { startRow := 0, startCol := 1, endRow := 2, endCol := 0,
                   active := true },
    scrollOffset := 0, dirty := false }

/-- A concrete buffer with no active selection. -/
def emptySelDemo : PVBuffer :=
  { visibleRows := 2, cols := 3, history := [['a', 'b', 'c']],
    screenLines := [['e'], []], scrollOffset := 0, dirty := false }

/-- Restatement of the selection-extraction contract in the words of the
spec (section 4.4): walk the normalized selection row range; for each row the
column range is the full row except that it is clipped to the selection start
column on the first row and to the selection end column on the last row;
right-trim each row text and join the rows with a newline; an inactive
selection yields the empty string. -/
def selectedTextSpec (s : PVBuffer) : String :=
  if ¬ s.selection.active then ""
  else
    let n := s.selection.normalize
    let r1 := n.1
    let c1 := n.2.1
    let r2 := n.2.2.1
    let c2 := n.2.2.2
    String.intercalate "\n" ((intRange r1 (r2 + 1)).map (fun row =>
      pyRstrip (String.mk ((intRange (if row = r1 then c1 else 0)
        ((if row = r2 then c2 else s.cols - 1) + 1)).map
        (fun col => lineRead ((s.getLine row).getD ([] : TermLine)) col)))))

/-! Helper lemmas about the SGR dispatch. -/

lemma sgrCond_isSome (attrs : List Int) (i : Nat) (attr code marker : Int)
    (need : Nat) (hn : 1 ≤ need) :
    (sgrCond attrs i attr code marker need).isSome = true := by
  unfold sgrCond
  split
  · split
    · rename_i hlen
      have hi : i + 1 < attrs.length := by omega
      simp [List.getElem?_eq_getElem hi]
    · simp
  · simp

lemma sgrCond_true (attrs : List Int) (i : Nat) (attr code marker : Int)
    (need : Nat) (h : sgrCond attrs i attr code marker need = some true) :
    attr = code ∧ i + need < attrs.length ∧ attrs[i + 1]? = some marker := by
  unfold sgrCond at h
  split at h
  · split at h
    · rename_i hc hlen
      cases ha : attrs[i + 1]? with
      | none => simp [ha] at h
      | some p =>
        simp [ha] at h
        exact ⟨hc, hlen, by simp [ha, h]⟩
    · simp at h
  · simp at h

lemma sgrCond_of_parts (attrs : List Int) (i : Nat) (attr code marker : Int)
    (need : Nat) (hc : attr = code) (hlen : i + need < attrs.length)
    (hm : attrs[i + 1]? = some marker) :
    sgrCond attrs i attr code marker need = some true := by
  unfold sgrCond
  simp [hc, hlen, hm]

lemma sgrCond_false_code (attrs : List Int) (i : Nat) (attr code marker : Int)
    (need : Nat) (hc : attr ≠ code) :
    sgrCond attrs i attr code marker need = some false := by
  unfold sgrCond; simp [hc]

lemma sgrCond_false_short (attrs : List Int) (i : Nat) (attr code marker : Int)
    (need : Nat) (hlen : ¬ i + need < attrs.length) :
    sgrCond attrs i attr code marker need = some false := by
  unfold sgrCond; simp [hlen]

lemma sgrCond_false_marker (attrs : List Int) (i : Nat) (attr code marker p : Int)
    (need : Nat) (hp : attrs[i + 1]? = some p) (hm : p ≠ marker) :
    sgrCond attrs i attr code marker need = some false := by
  unfold sgrCond
  split
  · split
    · simp [hp, hm]
    · rfl
  · rfl

/-- Past the end of the parameter list the loop exits with the state reached. -/
lemma sgrRun_end (attrs : List Int) (st : SGRState) (i : Nat)
    (h : attrs.length ≤ i) : sgrRun attrs st i = some st := by
  rw [sgrRun.eq_def]
  simp [Nat.not_lt.mpr h]

/-- The 38;5;N branch: with a 38 at position i, a 5 after it and the bounds
test i + 2 < len satisfied, the dispatch applies the foreground rule and
resumes exactly 3 parameters further. -/
lemma sgrRun_step_fg256 (attrs : List Int) (st : SGRState) (i : Nat) (n : Int)
    (h0 : attrs[i]? = some 38) (h1 : attrs[i + 1]? = some 5)
    (h2 : attrs[i + 2]? = some n) (hlen : i + 2 < attrs.length) :
    sgrRun attrs st i =
      sgrRun attrs (if 0 ≤ n ∧ n ≤ 255 then setFg st (.indexed n.toNat) else st)
        (i + 3) := by
  have hi : i < attrs.length := by omega
  conv_lhs => rw [sgrRun.eq_def]
  simp [hi, h0, sgrCond_of_parts attrs i 38 38 5 2 rfl hlen h1, h2]

/-- The 48;5;N branch: background analogue, consuming 3 parameters. -/
lemma sgrRun_step_bg256 (attrs : List Int) (st : SGRState) (i : Nat) (n : Int)
    (h0 : attrs[i]? = some 48) (h1 : attrs[i + 1]? = some 5)
    (h2 : attrs[i + 2]? = some n) (hlen : i + 2 < attrs.length) :
    sgrRun attrs st i =
      sgrRun attrs (if 0 ≤ n ∧ n ≤ 255 then setBg st (.indexed n.toNat) else st)
        (i + 3) := by
  have hi : i < attrs.length := by omega
  conv_lhs => rw [sgrRun.eq_def]
  simp [hi, h0, sgrCond_false_code attrs i 48 38 5 2 (by decide),
    sgrCond_of_parts attrs i 48 48 5 2 rfl hlen h1, h2]

/-- The 38;2;R;G;B branch: with a 38 at position i, a 2 after it and the
bounds test i + 4 < len satisfied, the dispatch applies the true-color
foreground rule and resumes exactly 5 parameters further. -/
lemma sgrRun_step_fgTC (attrs : List Int) (st : SGRState) (i : Nat) (r g b : Int)
    (h0 : attrs[i]? = some 38) (h1 : attrs[i + 1]? = some 2)
    (h2 : attrs[i + 2]? = some r) (h3 : attrs[i + 3]? = some g)
    (h4 : attrs[i + 4]? = some b) (hlen : i + 4 < attrs.length) :
    sgrRun attrs st i =
      sgrRun attrs
        (if 0 ≤ r ∧ r ≤ 255 ∧ 0 ≤ g ∧ g ≤ 255 ∧ 0 ≤ b ∧ b ≤ 255 then
          setFg st (.truecolor r.toNat g.toNat b.toNat)
        else st) (i + 5) := by
  have hi : i < attrs.length := by omega
  conv_lhs => rw [sgrRun.eq_def]
  simp [hi, h0, sgrCond_false_marker attrs i 38 38 5 2 2 h1 (by decide),
    sgrCond_false_code attrs i 38 48 5 2 (by decide),
    sgrCond_of_parts attrs i 38 38 2 4 rfl hlen h1, h2, h3, h4]

/-- The 48;2;R;G;B branch: background analogue, consuming 5 parameters. -/
lemma sgrRun_step_bgTC (attrs : List Int) (st : SGRState) (i : Nat) (r g b : Int)
    (h0 : attrs[i]? = some 48) (h1 : attrs[i + 1]? = some 2)
    (h2 : attrs[i + 2]? = some r) (h3 : attrs[i + 3]? = some g)
    (h4 : attrs[i + 4]? = some b) (hlen : i + 4 < attrs.length) :
    sgrRun attrs st i =
      sgrRun attrs
        (if 0 ≤ r ∧ r ≤ 255 ∧ 0 ≤ g ∧ g ≤ 255 ∧ 0 ≤ b ∧ b ≤ 255 then
          setBg st (.truecolor r.toNat g.toNat b.toNat)
        else st) (i + 5) := by
  have hi : i < attrs.length := by omega
  conv_lhs => rw [sgrRun.eq_def]
  simp [hi, h0, sgrCond_false_code attrs i 48 38 5 2 (by decide),
    sgrCond_false_marker attrs i 48 48 5 2 2 h1 (by decide),
    sgrCond_false_code attrs i 48 38 2 4 (by decide),
    sgrCond_of_parts attrs i 48 48 2 4 rfl hlen h1, h2, h3, h4]

/-- The standalone branch: when none of the four extended-color guards holds
for the parameter at position i, only that one parameter is dispatched and
the loop resumes at position i + 1. -/
lemma sgrRun_step_single (attrs : List Int) (st : SGRState) (i : Nat) (a : Int)
    (h0 : attrs[i]? = some a)
    (hc1 : sgrCond attrs i a 38 5 2 = some false)
    (hc2 : sgrCond attrs i a 48 5 2 = some false)
    (hc3 : sgrCond attrs i a 38 2 4 = some false)
    (hc4 : sgrCond attrs i a 48 2 4 = some false) :
    sgrRun attrs st i = sgrRun attrs (applySingle st a) (i + 1) := by
  have hi : i < attrs.length := by
    have := List.getElem?_eq_some.mp h0
    exact this.1
  conv_lhs => rw [sgrRun.eq_def]
  simp [hi, h0, hc1, hc2, hc3, hc4]

/-- A some-valued read is forced whenever the index is in range. -/
lemma read_total (attrs : List Int) (j : Nat) (hj : j < attrs.length) :
    ∃ a, attrs[j]? = some a :=
  ⟨attrs[j], List.getElem?_eq_getElem hj⟩

/-- Fuel-indexed totality of the dispatch loop. -/
lemma sgrRun_isSome_aux (attrs : List Int) :
    ∀ (k : Nat) (st : SGRState) (i : Nat), attrs.length ≤ i + k →
      (sgrRun attrs st i).isSome = true := by
  intro k
  induction k with
  | zero =>
    intro st i hk
    rw [sgrRun_end attrs st i (by omega)]
    rfl
  | succ k ih =>
    intro st i hk
    by_cases hi : i < attrs.length
    · rw [sgrRun.eq_def]
      obtain ⟨attr, h0⟩ := read_total attrs i hi
      cases hc1 : sgrCond attrs i attr 38 5 2 with
      | none =>
        have := sgrCond_isSome attrs i attr 38 5 2 (by omega)
        rw [hc1] at this; exact absurd this (by simp)
      | some b1 =>
        cases b1 with
        | true =>
          obtain ⟨-, hlen, -⟩ := sgrCond_true attrs i attr 38 5 2 hc1
          obtain ⟨n, h2⟩ := read_total attrs (i + 2) hlen
          simp only [hi, dif_pos, h0, hc1, h2]
          exact ih _ (i + 3) (by omega)
        | false =>
        cases hc2 : sgrCond attrs i attr 48 5 2 with
        | none =>
          have := sgrCond_isSome attrs i attr 48 5 2 (by omega)
          rw [hc2] at this; exact absurd this (by simp)
        | some b2 =>
          cases b2 with
          | true =>
            obtain ⟨-, hlen, -⟩ := sgrCond_true attrs i attr 48 5 2 hc2
            obtain ⟨n, h2⟩ := read_total attrs (i + 2) hlen
            simp only [hi, dif_pos, h0, hc1, hc2, h2]
            exact ih _ (i + 3) (by omega)
          | false =>
          cases hc3 : sgrCond attrs i attr 38 2 4 with
          | none =>
            have := sgrCond_isSome attrs i attr 38 2 4 (by omega)
            rw [hc3] at this; exact absurd this (by simp)
          | some b3 =>
            cases b3 with
            | true =>
              obtain ⟨-, hlen, -⟩ := sgrCond_true attrs i attr 38 2 4 hc3
              obtain ⟨r, h2⟩ := read_total attrs (i + 2) (by omega)
              obtain ⟨g, h3⟩ := read_total attrs (i + 3) (by omega)
              obtain ⟨b, h4⟩ := read_total attrs (i + 4) hlen
              simp only [hi, dif_pos, h0, hc1, hc2, hc3, h2, h3, h4]
              exact ih _ (i + 5) (by omega)
            | false =>
            cases hc4 : sgrCond attrs i attr 48 2 4 with
            | none =>
              have := sgrCond_isSome attrs i attr 48 2 4 (by omega)
              rw [hc4] at this; exact absurd this (by simp)
            | some b4 =>
              cases b4 with
              | true =>
                obtain ⟨-, hlen, -⟩ := sgrCond_true attrs i attr 48 2 4 hc4
                obtain ⟨r, h2⟩ := read_total attrs (i + 2) (by omega)
                obtain ⟨g, h3⟩ := read_total attrs (i + 3) (by omega)
                obtain ⟨b, h4⟩ := read_total attrs (i + 4) hlen
                simp only [hi, dif_pos, h0, hc1, hc2, hc3, hc4, h2, h3, h4]
                exact ih _ (i + 5) (by omega)
              | false =>
                simp only [hi, dif_pos, h0, hc1, hc2, hc3, hc4]
                exact ih _ (i + 1) (by omega)
    · rw [sgrRun_end attrs st i (by omega)]
      rfl

/-- Totality of the dispatch loop: on every parameter list, starting at every
index, the loop terminates with a state and never hits an out-of-range list
read (the none branches are unreachable). -/
lemma sgrRun_isSome (attrs : List Int) (st : SGRState) (i : Nat) :
    (sgrRun attrs st i).isSome = true :=
  sgrRun_isSome_aux attrs attrs.length st i (by omega)

/-! Arithmetic of the packed-RGB representation. -/

/-- Bitwise or against a left-shifted value is plain addition when the low
part fits below the shift amount. -/
lemma shiftLeft_lor_eq_add (a : Nat) : ∀ (k b : Nat), b < 2 ^ k →
    (a <<< k) ||| b = a * 2 ^ k + b := by
  intro k
  induction k generalizing a with
  | zero =>
    intro b hb
    interval_cases b
    simp [Nat.shiftLeft_zero]
  | succ k ih =>
    intro b hb
    have hdecomp := Nat.bit_decide_mod_two_eq_one_shiftRight_one b
    have hb2 : b >>> 1 < 2 ^ k := by
      have h : b >>> 1 = b / 2 := Nat.shiftRight_one b
      rw [h]
      omega
    calc (a <<< (k + 1)) ||| b
        = Nat.bit false (a <<< k) ||| Nat.bit (decide (b % 2 = 1)) (b >>> 1) := by
          rw [hdecomp]
          congr 1
          rw [Nat.bit_val, Nat.shiftLeft_eq, Nat.shiftLeft_eq]
          simp [Nat.pow_succ]
          ring
      _ = Nat.bit (false || decide (b % 2 = 1)) ((a <<< k) ||| (b >>> 1)) := by
          rw [Nat.lor_bit]
      _ = a * 2 ^ (k + 1) + b := by
          rw [Bool.false_or, Nat.bit_val, ih a (b >>> 1) hb2]
          have h1 : b >>> 1 = b / 2 := Nat.shiftRight_one b
          have h2 : (decide (b % 2 = 1)).toNat = b % 2 := by
            rcases Nat.mod_two_eq_zero_or_one b with h | h <;> simp [h]
          rw [h1, h2]
          ring_nf
          omega

/-- The packing (r << 16) | (g << 8) | b used by pyte_color_to_rgb is the
base-256 positional value when the green and blue channels are in range. -/
lemma packRGB_eq_add (r g b : Nat) (hg : g < 256) (hb : b < 256) :
    (r <<< 16) ||| (g <<< 8) ||| b = r * 65536 + g * 256 + b := by
  have hp8 : (2 : Nat) ^ 8 = 256 := by norm_num
  have hp16 : (2 : Nat) ^ 16 = 65536 := by norm_num
  have hg16 : g <<< 8 < 2 ^ 16 := by rw [Nat.shiftLeft_eq, hp8, hp16]; omega
  have h1 : (r <<< 16) ||| (g <<< 8) = r * 65536 + g * 256 := by
    rw [shiftLeft_lor_eq_add r 16 (g <<< 8) hg16, Nat.shiftLeft_eq, hp8, hp16]
  have h2 : (r * 256 + g) <<< 8 = r * 65536 + g * 256 := by
    rw [Nat.shiftLeft_eq, hp8]
    ring
  calc (r <<< 16) ||| (g <<< 8) ||| b
      = ((r * 256 + g) <<< 8) ||| b := by rw [h1, h2]
    _ = (r * 256 + g) * 2 ^ 8 + b := shiftLeft_lor_eq_add _ 8 b (by omega)
    _ = r * 65536 + g * 256 + b := by rw [hp8]; ring

/-- Reading an appended list at an offset past the prefix reads the suffix. -/
lemma getElem_append_at (pre l : List Int) (j : Nat) :
    (pre ++ l)[pre.length + j]? = l[j]? := by
  simp [List.getElem?_append_right]

/-- When the completion condition of a guarded form fails (either the bounds
test or the marker parameter), the guard evaluates to false. -/
lemma sgrCond_false_of_not (attrs : List Int) (i : Nat) (attr code marker : Int)
    (need : Nat) (hn : 1 ≤ need)
    (h : ¬(i + need < attrs.length ∧ attrs[i + 1]? = some marker)) :
    sgrCond attrs i attr code marker need = some false := by
  by_cases hlen : i + need < attrs.length
  · obtain ⟨p, hp⟩ := read_total attrs (i + 1) (by omega)
    have hpm : p ≠ marker := fun he => h ⟨hlen, by rw [hp, he]⟩
    exact sgrCond_false_marker attrs i attr code marker p need hp hpm
  · exact sgrCond_false_short attrs i attr code marker need hlen

/-- A combined parameter list 38;5;A;48;5;B sets the foreground to index A
and the background to index B and consumes the whole list. -/
lemma sgrRun_combined (st : SGRState) (a b : Int)
    (ha0 : 0 ≤ a) (ha1 : a ≤ 255) (hb0 : 0 ≤ b) (hb1 : b ≤ 255) :
    sgrRun [38, 5, a, 48, 5, b] st 0 =
      some (setBg (setFg st (.indexed a.toNat)) (.indexed b.toNat)) := by
  have e1 := sgrRun_step_fg256 [38, 5, a, 48, 5, b] st 0 a
    (by simp) (by simp) (by simp) (by simp)
  rw [if_pos ⟨ha0, ha1⟩] at e1
  have e2 := sgrRun_step_bg256 [38, 5, a, 48, 5, b]
    (setFg st (.indexed a.toNat)) 3 b (by simp) (by simp) (by simp) (by simp)
  rw [if_pos ⟨hb0, hb1⟩] at e2
  have e3 := sgrRun_end [38, 5, a, 48, 5, b]
    (setBg (setFg st (.indexed a.toNat)) (.indexed b.toNat)) 6 (by simp)
  rw [e1]
  have h36 : (3 : Nat) + 3 = 6 := rfl
  rw [show (0 : Nat) + 3 = 3 from rfl] at e1 ⊢
  rw [e2, show (3 : Nat) + 3 = 6 from rfl, e3]

/-- C1: in select_graphic_rendition, a 38;5;N (resp. 48;5;N) group with N in
0..255 sets the cursor foreground (resp. background) to 256-color index N and
consumes exactly 3 parameters; a 38;2;R;G;B (resp. 48;2;R;G;B) group with all
components in 0..255 sets the foreground (resp. background) to exactly
(R,G,B) and consumes exactly 5 parameters; a combined list 38;5;A;48;5;B sets
the foreground to A and the background to B independently; and a character
printed afterwards carries those colors. -/
theorem claim_C1 :
    (∀ (st : SGRState) (pre rest : List Int) (n : Int), 0 ≤ n → n ≤ 255 →
      sgrRun (pre ++ 38 :: 5 :: n :: rest) st pre.length =
        sgrRun (pre ++ 38 :: 5 :: n :: rest) (setFg st (.indexed n.toNat))
          (pre.length + 3)) ∧
    (∀ (st : SGRState) (pre rest : List Int) (n : Int), 0 ≤ n → n ≤ 255 →
      sgrRun (pre ++ 48 :: 5 :: n :: rest) st pre.length =
        sgrRun (pre ++ 48 :: 5 :: n :: rest) (setBg st (.indexed n.toNat))
          (pre.length + 3)) ∧
    (∀ (st : SGRState) (pre rest : List Int) (r g b : Int),
      0 ≤ r → r ≤ 255 → 0 ≤ g → g ≤ 255 → 0 ≤ b → b ≤ 255 →
      sgrRun (pre ++ 38 :: 2 :: r :: g :: b :: rest) st pre.length =
        sgrRun (pre ++ 38 :: 2 :: r :: g :: b :: rest)
          (setFg st (.truecolor r.toNat g.toNat b.toNat)) (pre.length + 5)) ∧
    (∀ (st : SGRState) (pre rest : List Int) (r g b : Int),
      0 ≤ r → r ≤ 255 → 0 ≤ g → g ≤ 255 → 0 ≤ b → b ≤ 255 →
      sgrRun (pre ++ 48 :: 2 :: r :: g :: b :: rest) st pre.length =
        sgrRun (pre ++ 48 :: 2 :: r :: g :: b :: rest)
          (setBg st (.truecolor r.toNat g.toNat b.toNat)) (pre.length + 5)) ∧
    (∀ (st : SGRState) (a b : Int), 0 ≤ a → a ≤ 255 → 0 ≤ b → b ≤ 255 →
      sgrRun [38, 5, a, 48, 5, b] st 0 =
        some (setBg (setFg st (.indexed a.toNat)) (.indexed b.toNat))) ∧
    (∀ (st st2 : SGRState) (a b : Int) (c : Char),
      0 ≤ a → a ≤ 255 → 0 ≤ b → b ≤ 255 →
      sgrRun [38, 5, a, 48, 5, b] st 0 = some st2 →
      (drawChar st2 c).fg = .indexed a.toNat ∧
        (drawChar st2 c).bg = .indexed b.toNat) := by
  refine ⟨?_, ?_, ?_, ?_, ?_, ?_⟩
  · intro st pre rest n h0 h1
    have e := sgrRun_step_fg256 (pre ++ 38 :: 5 :: n :: rest) st pre.length n
      (by simpa using getElem_append_at pre (38 :: 5 :: n :: rest) 0)
      (by simpa using getElem_append_at pre (38 :: 5 :: n :: rest) 1)
      (by simpa using getElem_append_at pre (38 :: 5 :: n :: rest) 2)
      (by simp)
    rwa [if_pos ⟨h0, h1⟩] at e
  · intro st pre rest n h0 h1
    have e := sgrRun_step_bg256 (pre ++ 48 :: 5 :: n :: rest) st pre.length n
      (by simpa using getElem_append_at pre (48 :: 5 :: n :: rest) 0)
      (by simpa using getElem_append_at pre (48 :: 5 :: n :: rest) 1)
      (by simpa using getElem_append_at pre (48 :: 5 :: n :: rest) 2)
      (by simp)
    rwa [if_pos ⟨h0, h1⟩] at e
  · intro st pre rest r g b hr0 hr1 hg0 hg1 hb0 hb1
    have e := sgrRun_step_fgTC (pre ++ 38 :: 2 :: r :: g :: b :: rest) st
      pre.length r g b
      (by simpa using getElem_append_at pre (38 :: 2 :: r :: g :: b :: rest) 0)
      (by simpa using getElem_append_at pre (38 :: 2 :: r :: g :: b :: rest) 1)
      (by simpa using getElem_append_at pre (38 :: 2 :: r :: g :: b :: rest) 2)
      (by simpa using getElem_append_at pre (38 :: 2 :: r :: g :: b :: rest) 3)
      (by simpa using getElem_append_at pre (38 :: 2 :: r :: g :: b :: rest) 4)
      (by simp)
    rwa [if_pos ⟨hr0, hr1, hg0, hg1, hb0, hb1⟩] at e
  · intro st pre rest r g b hr0 hr1 hg0 hg1 hb0 hb1
    have e := sgrRun_step_bgTC (pre ++ 48 :: 2 :: r :: g :: b :: rest) st
      pre.length r g b
      (by simpa using getElem_append_at pre (48 :: 2 :: r :: g :: b :: rest) 0)
      (by simpa using getElem_append_at pre (48 :: 2 :: r :: g :: b :: rest) 1)
      (by simpa using getElem_append_at pre (48 :: 2 :: r :: g :: b :: rest) 2)
      (by simpa using getElem_append_at pre (48 :: 2 :: r :: g :: b :: rest) 3)
      (by simpa using getElem_append_at pre (48 :: 2 :: r :: g :: b :: rest) 4)
      (by simp)
    rwa [if_pos ⟨hr0, hr1, hg0, hg1, hb0, hb1⟩] at e
  · intro st a b ha0 ha1 hb0 hb1
    exact sgrRun_combined st a b ha0 ha1 hb0 hb1
  · intro st st2 a b c ha0 ha1 hb0 hb1 hrun
    rw [sgrRun_combined st a b ha0 ha1 hb0 hb1] at hrun
    obtain rfl := Option.some.inj hrun
    exact ⟨rfl, rfl⟩

/-- Witness for C1 at the concrete inputs of the repository test file:
38;5;196 sets foreground index 196, and the combined list 38;5;196;48;5;82
sets foreground 196 and background 82, carried by a printed character. -/
theorem claim_C1_witness :
    ((0 : Int) ≤ 196 ∧ (196 : Int) ≤ 255 ∧
      sgrRun [38, 5, 196] ({} : SGRState) 0 =
        sgrRun [38, 5, 196] (setFg ({} : SGRState) (.indexed 196)) 3) ∧
    ((0 : Int) ≤ 82 ∧ (82 : Int) ≤ 255 ∧
      sgrRun [38, 5, 196, 48, 5, 82] ({} : SGRState) 0 =
        some (setBg (setFg ({} : SGRState) (.indexed 196)) (.indexed 82))) ∧
    (drawChar (setBg (setFg ({} : SGRState) (.indexed 196)) (.indexed 82)) 'X').fg =
        .indexed 196 :=
  by
  refine ⟨⟨by decide, by decide, ?_⟩, ⟨by decide, by decide, ?_⟩, ?_⟩
  · simpa using claim_C1.1 ({} : SGRState) [] [] 196 (by decide) (by decide)
  · simpa using claim_C1.2.2.2.2.1 ({} : SGRState) 196 82 (by decide)
      (by decide) (by decide) (by decide)
  · exact (claim_C1.2.2.2.2.2 ({} : SGRState) _ 196 82 (Char.ofNat 88)
      (by decide) (by decide) (by decide) (by decide)
      (claim_C1.2.2.2.2.1 ({} : SGRState) 196 82 (by decide) (by decide)
        (by decide) (by decide))).1

/-- C4: the dispatch loop is total — no parameter list makes it perform an
out-of-range list read (the Option-valued run is always some) — and whenever
a 38 or 48 at position i lacks the parameters needed to complete the ;5;N or
;2;R;G;B form, only that one parameter is dispatched standalone and the loop
resumes at position i + 1. -/
theorem claim_C4 :
    (∀ (attrs : List Int) (st : SGRState) (i : Nat),
      (sgrRun attrs st i).isSome = true) ∧
    (∀ (attrs : List Int) (st : SGRState) (i : Nat) (a : Int),
      attrs[i]? = some a → a = 38 ∨ a = 48 →
      ¬(i + 2 < attrs.length ∧ attrs[i + 1]? = some 5) →
      ¬(i + 4 < attrs.length ∧ attrs[i + 1]? = some 2) →
      sgrRun attrs st i = sgrRun attrs (applySingle st a) (i + 1)) := by
  refine ⟨sgrRun_isSome, ?_⟩
  intro attrs st i a h0 hcode h5 h2
  rcases hcode with rfl | rfl
  · exact sgrRun_step_single attrs st i 38 h0
      (sgrCond_false_of_not attrs i 38 38 5 2 (by omega) h5)
      (sgrCond_false_code attrs i 38 48 5 2 (by decide))
      (sgrCond_false_of_not attrs i 38 38 2 4 (by omega) h2)
      (sgrCond_false_code attrs i 38 48 2 4 (by decide))
  · exact sgrRun_step_single attrs st i 48 h0
      (sgrCond_false_code attrs i 48 38 5 2 (by decide))
      (sgrCond_false_of_not attrs i 48 48 5 2 (by omega) h5)
      (sgrCond_false_code attrs i 48 38 2 4 (by decide))
      (sgrCond_false_of_not attrs i 48 48 2 4 (by omega) h2)

/-- Witness for C4 on the truncated list [38, 5]: the 38 cannot complete
either extended form, is dispatched standalone, and the run succeeds. -/
theorem claim_C4_witness :
    ((sgrRun [38, 5] ({} : SGRState) 0).isSome = true) ∧
    (([38, 5] : List Int)[0]? = some 38 ∧
      ¬(0 + 2 < ([38, 5] : List Int).length ∧
        ([38, 5] : List Int)[0 + 1]? = some 5) ∧
      ¬(0 + 4 < ([38, 5] : List Int).length ∧
        ([38, 5] : List Int)[0 + 1]? = some 2) ∧
      sgrRun [38, 5] ({} : SGRState) 0 =
        sgrRun [38, 5] (applySingle ({} : SGRState) 38) (0 + 1)) := by
  refine ⟨claim_C4.1 [38, 5] ({} : SGRState) 0,
    by decide, by decide, by decide,
    claim_C4.2 [38, 5] ({} : SGRState) 0 38 (by decide) (Or.inl rfl)
      (by decide) (by decide)⟩

/-- C5: an extended color group whose value is out of range (38;5;N or
48;5;N with N outside 0..255, or 38;2;R;G;B / 48;2;R;G;B with a component
outside 0..255) still consumes its full group of 3 resp. 5 parameters, the
cursor colors stay unchanged, and the run still succeeds without error. -/
theorem claim_C5 :
    (∀ (st : SGRState) (pre rest : List Int) (n : Int), ¬(0 ≤ n ∧ n ≤ 255) →
      sgrRun (pre ++ 38 :: 5 :: n :: rest) st pre.length =
        sgrRun (pre ++ 38 :: 5 :: n :: rest) st (pre.length + 3) ∧
      (sgrRun (pre ++ 38 :: 5 :: n :: rest) st pre.length).isSome = true) ∧
    (∀ (st : SGRState) (pre rest : List Int) (n : Int), ¬(0 ≤ n ∧ n ≤ 255) →
      sgrRun (pre ++ 48 :: 5 :: n :: rest) st pre.length =
        sgrRun (pre ++ 48 :: 5 :: n :: rest) st (pre.length + 3)) ∧
    (∀ (st : SGRState) (pre rest : List Int) (r g b : Int),
      ¬(0 ≤ r ∧ r ≤ 255 ∧ 0 ≤ g ∧ g ≤ 255 ∧ 0 ≤ b ∧ b ≤ 255) →
      sgrRun (pre ++ 38 :: 2 :: r :: g :: b :: rest) st pre.length =
        sgrRun (pre ++ 38 :: 2 :: r :: g :: b :: rest) st (pre.length + 5)) ∧
    (∀ (st : SGRState) (pre rest : List Int) (r g b : Int),
      ¬(0 ≤ r ∧ r ≤ 255 ∧ 0 ≤ g ∧ g ≤ 255 ∧ 0 ≤ b ∧ b ≤ 255) →
      sgrRun (pre ++ 48 :: 2 :: r :: g :: b :: rest) st pre.length =
        sgrRun (pre ++ 48 :: 2 :: r :: g :: b :: rest) st (pre.length + 5)) := by
  refine ⟨?_, ?_, ?_, ?_⟩
  · intro st pre rest n hn
    have e := sgrRun_step_fg256 (pre ++ 38 :: 5 :: n :: rest) st pre.length n
      (by simpa using getElem_append_at pre (38 :: 5 :: n :: rest) 0)
      (by simpa using getElem_append_at pre (38 :: 5 :: n :: rest) 1)
      (by simpa using getElem_append_at pre (38 :: 5 :: n :: rest) 2)
      (by simp)
    rw [if_neg hn] at e
    exact ⟨e, sgrRun_isSome _ _ _⟩
  · intro st pre rest n hn
    have e := sgrRun_step_bg256 (pre ++ 48 :: 5 :: n :: rest) st pre.length n
      (by simpa using getElem_append_at pre (48 :: 5 :: n :: rest) 0)
      (by simpa using getElem_append_at pre (48 :: 5 :: n :: rest) 1)
      (by simpa using getElem_append_at pre (48 :: 5 :: n :: rest) 2)
      (by simp)
    rwa [if_neg hn] at e
  · intro st pre rest r g b hn
    have e := sgrRun_step_fgTC (pre ++ 38 :: 2 :: r :: g :: b :: rest) st
      pre.length r g b
      (by simpa using getElem_append_at pre (38 :: 2 :: r :: g :: b :: rest) 0)
      (by simpa using getElem_append_at pre (38 :: 2 :: r :: g :: b :: rest) 1)
      (by simpa using getElem_append_at pre (38 :: 2 :: r :: g :: b :: rest) 2)
      (by simpa using getElem_append_at pre (38 :: 2 :: r :: g :: b :: rest) 3)
      (by simpa using getElem_append_at pre (38 :: 2 :: r :: g :: b :: rest) 4)
      (by simp)
    rwa [if_neg hn] at e
  · intro st pre rest r g b hn
    have e := sgrRun_step_bgTC (pre ++ 48 :: 2 :: r :: g :: b :: rest) st
      pre.length r g b
      (by simpa using getElem_append_at pre (48 :: 2 :: r :: g :: b :: rest) 0)
      (by simpa using getElem_append_at pre (48 :: 2 :: r :: g :: b :: rest) 1)
      (by simpa using getElem_append_at pre (48 :: 2 :: r :: g :: b :: rest) 2)
      (by simpa using getElem_append_at pre (48 :: 2 :: r :: g :: b :: rest) 3)
      (by simpa using getElem_append_at pre (48 :: 2 :: r :: g :: b :: rest) 4)
      (by simp)
    rwa [if_neg hn] at e

/-- Witness for C5 at the out-of-range inputs 38;5;300 and 38;2;256;0;0. -/
theorem claim_C5_witness :
    (¬((0 : Int) ≤ 300 ∧ (300 : Int) ≤ 255) ∧
      sgrRun [38, 5, 300] ({} : SGRState) 0 =
        sgrRun [38, 5, 300] ({} : SGRState) 3) ∧
    (¬((0 : Int) ≤ 256 ∧ (256 : Int) ≤ 255 ∧ (0 : Int) ≤ 0 ∧ (0 : Int) ≤ 255 ∧
        (0 : Int) ≤ 0 ∧ (0 : Int) ≤ 255) ∧
      sgrRun [38, 2, 256, 0, 0] ({} : SGRState) 0 =
        sgrRun [38, 2, 256, 0, 0] ({} : SGRState) 5) := by
  constructor
  · refine ⟨by decide, ?_⟩
    simpa using (claim_C5.1 ({} : SGRState) [] [] 300 (by decide)).1
  · refine ⟨by decide, ?_⟩
    simpa using claim_C5.2.2.1 ({} : SGRState) [] [] 256 0 0 (by decide)

set_option maxRecDepth 4000 in
/-- C7: color resolution — indices 16..231 resolve to the 6x6x6 cube with
axis value 0 for 0 and 55 + 40n for n in 1..5 (stated both over the raw
index and over the cube coordinates), indices 232..255 resolve to the
grayscale value 8 + 10i replicated in all three channels, a TrueColor
(r, g, b) resolves to exactly that RGB (the packed value decodes back to the
three components), and Default resolves to the caller-supplied default. -/
theorem claim_C7 :
    (∀ n < 232, 16 ≤ n →
      get256Color n =
        (axisVal ((n - 16) / 36 % 6) <<< 16) |||
          (axisVal ((n - 16) / 6 % 6) <<< 8) ||| axisVal ((n - 16) % 6)) ∧
    (∀ r < 6, ∀ g < 6, ∀ b < 6,
      get256Color (16 + (36 * r + 6 * g + b)) =
        (axisVal r <<< 16) ||| (axisVal g <<< 8) ||| axisVal b) ∧
    (∀ i < 24,
      get256Color (232 + i) =
        ((8 + i * 10) <<< 16) ||| ((8 + i * 10) <<< 8) ||| (8 + i * 10)) ∧
    (∀ (r g b d : Nat), r < 256 → g < 256 → b < 256 →
      pyteColorToRgb (.truecolor r g b) d = r * 65536 + g * 256 + b ∧
      pyteColorToRgb (.truecolor r g b) d / 65536 = r ∧
      pyteColorToRgb (.truecolor r g b) d / 256 % 256 = g ∧
      pyteColorToRgb (.truecolor r g b) d % 256 = b) ∧
    (∀ d, pyteColorToRgb .default d = d) := by
  refine ⟨by decide, by decide, by decide, ?_, fun d => rfl⟩
  intro r g b d hr hg hb
  have hpack : pyteColorToRgb (.truecolor r g b) d = r * 65536 + g * 256 + b := by
    show (r <<< 16) ||| (g <<< 8) ||| b = r * 65536 + g * 256 + b
    exact packRGB_eq_add r g b hg hb
  refine ⟨hpack, ?_, ?_, ?_⟩ <;> rw [hpack] <;> omega

/-- Witness for C7 at index 196 (the bright red of the repository test
file), grayscale index 240, and true color (255, 128, 0). -/
theorem claim_C7_witness :
    (196 < 232 ∧ 16 ≤ 196 ∧
      get256Color 196 =
        (axisVal ((196 - 16) / 36 % 6) <<< 16) |||
          (axisVal ((196 - 16) / 6 % 6) <<< 8) ||| axisVal ((196 - 16) % 6)) ∧
    (8 < 24 ∧ get256Color (232 + 8) =
      ((8 + 8 * 10) <<< 16) ||| ((8 + 8 * 10) <<< 8) ||| (8 + 8 * 10)) ∧
    (255 < 256 ∧ 128 < 256 ∧ 0 < 256 ∧
      pyteColorToRgb (.truecolor 255 128 0) 0 = 255 * 65536 + 128 * 256 + 0) := by
  refine ⟨⟨by decide, by decide, claim_C7.1 196 (by decide) (by decide)⟩,
    ⟨by decide, claim_C7.2.2.1 8 (by decide)⟩,
    ⟨by decide, by decide, by decide,
      (claim_C7.2.2.2.1 255 128 0 0 (by decide) (by decide) (by decide)).1⟩⟩

/-- C2: feed never propagates an exception to its caller — for every prior
buffer state and every outcome of the underlying stream parse (any resulting
screen/history contents, with or without a raised parse error), the feed call
returns a state and surfaces no exception. -/
theorem claim_C2 (s : PVBuffer) (newHist newScr : List TermLine)
    (streamErr : Option String) :
    (PVBuffer.feed s newHist newScr streamErr).2 = none := rfl

/-- C3: auto-scroll of feed — a viewport pinned at max_scroll before feed is
pinned at the new max_scroll after it, and a viewport strictly above the
bottom keeps its scroll offset unchanged whenever the feed grows
total_lines.  The offset nonnegativity hypothesis is the program invariant
(the offset starts at 0 and every write clamps with max(0, ...)). -/
theorem claim_C3 (s : PVBuffer) (newHist newScr : List TermLine)
    (streamErr : Option String) :
    (s.scrollOffset = s.maxScroll →
      (PVBuffer.feed s newHist newScr streamErr).1.scrollOffset =
        (PVBuffer.feed s newHist newScr streamErr).1.maxScroll) ∧
    (0 ≤ s.scrollOffset → s.scrollOffset < s.maxScroll →
      s.totalLines < (newHist.length : Int) + newScr.length →
      (PVBuffer.feed s newHist newScr streamErr).1.scrollOffset =
        s.scrollOffset) := by
  constructor
  · intro h
    simp only [PVBuffer.feed, PVBuffer.clampScroll, PVBuffer.maxScroll,
      PVBuffer.totalLines] at h ⊢
    split_ifs with hw
    all_goals dsimp only
    all_goals omega
  · intro h0 hlt hgrow
    simp only [PVBuffer.feed, PVBuffer.clampScroll, PVBuffer.maxScroll,
      PVBuffer.totalLines] at hlt hgrow ⊢
    split_ifs with hw
    all_goals dsimp only
    all_goals omega



/-- Witness for C3: a buffer at the bottom stays pinned after a feed that
grows the history, and a buffer scrolled above the bottom keeps its offset. -/
theorem claim_C3_witness :
    (feedDemoBottom.scrollOffset = feedDemoBottom.maxScroll ∧
      (PVBuffer.feed feedDemoBottom [[], [], []] [[], []] none).1.scrollOffset =
        (PVBuffer.feed feedDemoBottom [[], [], []] [[], []] none).1.maxScroll) ∧
    (feedDemoAbove.scrollOffset < feedDemoAbove.maxScroll ∧
      feedDemoAbove.totalLines < ((3 : Nat) : Int) + ((2 : Nat) : Int) ∧
      (PVBuffer.feed feedDemoAbove [[], [], []] [[], []] none).1.scrollOffset = 1) := by
  constructor
  · exact ⟨by decide, (claim_C3 feedDemoBottom [[], [], []] [[], []] none).1 (by decide)⟩
  · refine ⟨by decide, by decide, ?_⟩
    have h := (claim_C3 feedDemoAbove [[], [], []] [[], []] none).2
      (by decide) (by decide) (by simp [feedDemoAbove, PVBuffer.totalLines])
    simpa [feedDemoAbove] using h


/-- Counterexample to C8 as stated: PyteTerminalBuffer.scroll_to sets the
dirty flag unconditionally, so after scroll_to(1), clear_dirty, scroll_to(1)
the dirty flag is set again — the claim asserts it would still be clear. -/
theorem claim_C8_cex :
    (PVBuffer.scrollTo (PVBuffer.clearDirty (PVBuffer.scrollTo scrollDemo 1))
      1).dirty = true := rfl

/-- C8 as amended: for both buffer classes, calling scroll_to twice with the
same value yields the same scroll_offset as calling it once; for
TextBuffer.scroll_to (which guards the dirty write behind an offset change)
the second call does not mark a cleared dirty flag again, while
PyteTerminalBuffer.scroll_to marks dirty on every call. -/
theorem claim_C8 :
    (∀ (s : PVBuffer) (off : Int),
      (PVBuffer.scrollTo (PVBuffer.scrollTo s off) off).scrollOffset =
        (PVBuffer.scrollTo s off).scrollOffset) ∧
    (∀ (t : TBuf) (off : Int),
      (TBuf.scrollTo (TBuf.scrollTo t off) off).scrollOffset =
        (TBuf.scrollTo t off).scrollOffset ∧
      (TBuf.scrollTo (TBuf.clearDirty (TBuf.scrollTo t off)) off).dirty =
        false) ∧
    (∀ (s : PVBuffer) (off : Int), (PVBuffer.scrollTo s off).dirty = true) := by
  refine ⟨fun s off => rfl, ?_, fun s off => rfl⟩
  intro t off
  constructor
  · simp only [TBuf.scrollTo, TBuf.maxScroll]
    split_ifs <;> simp_all
  · simp only [TBuf.scrollTo, TBuf.clearDirty, TBuf.maxScroll]
    split_ifs <;> simp_all


/-- Counterexample to C9 as stated: PyteTerminalBuffer.resize performs no
dimension clamping — resize(0, 0) leaves the buffer with 0 rows and 0
columns, not at least 1x1 as the claim asserts. -/
theorem claim_C9_cex :
    (PVBuffer.resize resizeDemo 0 0 [] []).visibleRows = 0 ∧
      (PVBuffer.resize resizeDemo 0 0 [] []).cols = 0 := ⟨rfl, rfl⟩

/-- C9 as amended: PyteTerminalBuffer.resize stores the requested dimensions
exactly as given (no clamping) and never surfaces an error; the clamping to a
minimum of 1x1 lives in the GUI grid-size computation
(_calculate_grid_size), whose outputs are always at least 1 before resize is
ever invoked. -/
theorem claim_C9 :
    (∀ (s : PVBuffer) (rows cols : Int) (nh ns : List TermLine),
      (PVBuffer.resize s rows cols nh ns).visibleRows = rows ∧
        (PVBuffer.resize s rows cols nh ns).cols = cols) ∧
    (∀ (w h cw ch rows cols : Int),
      calcGridSize w h cw ch = some (cols, rows) → 1 ≤ rows ∧ 1 ≤ cols) := by
  refine ⟨fun s rows cols nh ns => ⟨rfl, rfl⟩, ?_⟩
  intro w h cw ch rows cols hc
  unfold calcGridSize at hc
  split_ifs at hc
  obtain ⟨h1, h2⟩ := Prod.mk.injEq .. ▸ Option.some.inj hc
  omega

/-- Witness for C9 at a degenerate 0x0 widget: the grid-size computation
clamps to 1x1, and resize stores the dimensions it is given. -/
theorem claim_C9_witness :
    (calcGridSize 0 0 9 18 = some (1, 1) ∧ (1 : Int) ≤ 1 ∧ (1 : Int) ≤ 1) ∧
    ((PVBuffer.resize resizeDemo 5 7 [] []).visibleRows = 5 ∧
      (PVBuffer.resize resizeDemo 5 7 [] []).cols = 7) := by
  refine ⟨⟨by decide, ?_⟩, claim_C9.1 resizeDemo 5 7 [] []⟩
  have h := claim_C9.2 0 0 9 18 1 1 (by decide)
  exact ⟨h.1, h.2⟩

/-- C10: when no selection is active, update_selection is a complete no-op on
both buffer classes — the returned state is exactly the input state, so the
selection endpoints, the active flag, the scroll offset and the dirty flag
all keep their prior values. -/
theorem claim_C10 :
    (∀ (s : PVBuffer) (viewRow col : Int), s.selection.active = false →
      PVBuffer.updateSelection s viewRow col = s) ∧
    (∀ (t : TBuf) (row col : Int), t.selection.active = false →
      TBuf.updateSelection t row col = t) := by
  constructor
  · intro s viewRow col h
    simp [PVBuffer.updateSelection, h]
  · intro t row col h
    simp [TBuf.updateSelection, h]


/-- Witness for C10: update_selection on a buffer with no active selection
returns the buffer unchanged. -/
theorem claim_C10_witness :
    noSelDemo.selection.active = false ∧
      PVBuffer.updateSelection noSelDemo 1 2 = noSelDemo :=
  ⟨rfl, claim_C10.1 noSelDemo 1 2 rfl⟩

/-- Membership in an integer range gives its bounds. -/
lemma mem_intRange {lo hi x : Int} (h : x ∈ intRange lo hi) :
    lo ≤ x ∧ x < hi := by
  unfold intRange at h
  obtain ⟨k, hk, rfl⟩ := List.mem_map.mp h
  rw [List.mem_range] at hk
  omega

/-- Every absolute row inside the unified address space resolves to a line:
rows below history_size land in history, the rest land on the active screen. -/
lemma getLine_total (s : PVBuffer) (row : Int) (h0 : 0 ≤ row)
    (hlt : row < s.totalLines) : ∃ l, s.getLine row = some l := by
  unfold PVBuffer.getLine
  unfold PVBuffer.totalLines at hlt
  rw [if_neg (by omega)]
  by_cases hh : row < (s.history.length : Int)
  · rw [if_pos hh]
    have hn : row.toNat < s.history.length := by omega
    exact ⟨s.history[row.toNat], List.getElem?_eq_getElem hn⟩
  · rw [if_neg hh, if_pos (by constructor <;> omega)]
    have hn : (row - (s.history.length : Int)).toNat < s.screenLines.length := by
      omega
    exact ⟨s.screenLines[(row - (s.history.length : Int)).toNat],
      List.getElem?_eq_getElem hn⟩

/-- A filterMap whose function is pointwise some of g is the map of g. -/
lemma filterMap_eq_map_of_some {α β : Type} (l : List α) (f : α → Option β)
    (g : α → β) (h : ∀ x ∈ l, f x = some (g x)) : l.filterMap f = l.map g := by
  induction l with
  | nil => rfl
  | cons a as ih =>
    rw [List.filterMap_cons, h a (by simp), List.map_cons,
      ih (fun x hx => h x (by simp [hx]))]


/-- C6: get_selected_text returns the empty string when no selection is
active; with an active selection whose endpoints lie inside the unified
address space (the invariant start_selection and update_selection maintain by
clamping), it returns exactly the spec-side extraction: the normalized row
range, full-row columns clipped to the start column on the first row and the
end column on the last row, each row right-trimmed, joined with newlines. -/
theorem claim_C6 :
    (∀ s : PVBuffer, s.selection.active = false →
      PVBuffer.getSelectedText s = "") ∧
    (∀ s : PVBuffer, s.selection.active = true →
      0 ≤ s.selection.startRow → s.selection.startRow < s.totalLines →
      0 ≤ s.selection.endRow → s.selection.endRow < s.totalLines →
      PVBuffer.getSelectedText s = selectedTextSpec s) := by
  constructor
  · intro s h
    unfold PVBuffer.getSelectedText
    rw [if_pos (Or.inl (by simp [h]))]
  · intro s hact h0s hslt h0e helt
    unfold PVBuffer.getSelectedText selectedTextSpec
    rw [if_neg (by simp [hact]; omega), if_neg (by simp [hact])]
    rcases hnorm : s.selection.normalize with ⟨r1, c1, r2, c2⟩
    have hr : 0 ≤ r1 ∧ r2 < s.totalLines := by
      unfold Selection.normalize at hnorm
      split_ifs at hnorm <;>
        · simp only [Prod.mk.injEq] at hnorm
          obtain ⟨e1, e2, e3, e4⟩ := hnorm
          omega
    simp only [hnorm]
    congr 1
    apply filterMap_eq_map_of_some
    intro row hrow
    obtain ⟨hlo, hhi⟩ := mem_intRange hrow
    obtain ⟨l, hl⟩ := getLine_total s row (by omega) (by omega)
    simp only [hl, Option.getD_some]



/-- Witness for C6: the multi-row extraction agrees with the spec-side
extraction and yields bc, d, e joined by newlines; an inactive selection
yields the empty string. -/
theorem claim_C6_witness :
    (selDemo.selection.active = true ∧ 0 ≤ selDemo.selection.startRow ∧
      selDemo.selection.startRow < selDemo.totalLines ∧
      0 ≤ selDemo.selection.endRow ∧
      selDemo.selection.endRow < selDemo.totalLines ∧
      PVBuffer.getSelectedText selDemo = selectedTextSpec selDemo) ∧
    PVBuffer.getSelectedText selDemo = "bc\nd\ne" ∧
    (emptySelDemo.selection.active = false ∧
      PVBuffer.getSelectedText emptySelDemo = "") := by
  refine ⟨⟨rfl, by decide, by decide, by decide, by decide,
    claim_C6.2 selDemo rfl (by decide) (by decide) (by decide) (by decide)⟩,
    by decide, rfl, claim_C6.1 emptySelDemo rfl⟩
